import Mathlib

/-
Shallow embedding of the deposit-detection and balance-reconciliation core of
the vanityapp repository (src/vanityapp/backend/payments.py and db.py).

Modelling conventions:
* Python floats holding SOL amounts are modelled as rationals; lamport
  counts are integers.
* The sqlite `transactions` table is a list of entries in insertion order
  (row id order); its UNIQUE constraint on tx_signature is the duplicate
  check in `record_transaction`.
* The `users` table is a list of user rows.
* The parsed value of the setting "referral_bonus_percent"
  (float(db.get_setting("referral_bonus_percent", "5"))) is carried as the
  field `referral_bonus_percent` of the database state.
* Chain RPC calls are oracles passed as parameters: the result of
  client.get_transaction(sig) is a function String -> Option TxDetail
  (none models a falsy tx.value, i.e. not yet finalized / unavailable),
  the result of get_signatures_for_address is an Option (List String)
  (none models a raised exception), the result of get_balance in the
  sweep is an Option Int, and send_transaction's returned signature is an
  Option String.
* Python truthiness is modelled explicitly where the source relies on it
  (None / 0.0 / "" / empty list are falsy).
-/

namespace VanityApp

/-- Ledger entry category (the transactions.tx_type column). The source
stores it as a string; the categories used by the core are fixed, so it is
modelled as an inductive type. -/
inductive TxType
  | deposit
  | purchase
  | referral_bonus
  | referral_commission
  | sweep
  deriving DecidableEq

/-- Models the substring test `'referral' in last_tx['tx_type']` inside
`db.update_balance`: it holds exactly for the two referral categories. -/
def txTypeHasReferral : TxType → Bool
  | TxType.referral_bonus => true
  | TxType.referral_commission => true
  | _ => false

/-- One row of the `transactions` table (db.py): the ledger. -/
structure TxEntry where
  tx_signature : String
  user_id : Nat
  amount_sol : ℚ
  tx_type : TxType
  deriving DecidableEq

/-- One row of the `users` table (db.py), restricted to the columns the
payment core reads or writes. -/
structure User where
  id : Nat
  balance_sol : ℚ
  referred_by : Option Nat
  referral_earnings : ℚ
  deriving DecidableEq

/-- The relational store state used by the payment core. -/
structure DB where
  users : List User
  transactions : List TxEntry
  referral_bonus_percent : ℚ
  deriving DecidableEq

/-- db.get_transaction_by_signature: SELECT * FROM transactions WHERE
tx_signature = ?. -/
def get_transaction_by_signature (db : DB) (sig : String) : Option TxEntry :=
  db.transactions.find? (fun t => t.tx_signature == sig)

/-- Truthiness of `get_transaction_by_signature` (row present). -/
def hasSig (db : DB) (sig : String) : Bool :=
  (get_transaction_by_signature db sig).isSome

/-- db.record_transaction: INSERT INTO transactions ...; the UNIQUE
constraint on tx_signature makes the insert fail (IntegrityError, return 0)
when a row with this signature already exists; otherwise the new row id is
returned. -/
def record_transaction (db : DB) (user_id : Nat) (sig : String) (amount : ℚ)
    (ty : TxType) : DB × Nat :=
  if hasSig db sig then (db, 0)
  else ({ db with transactions := db.transactions ++ [TxEntry.mk sig user_id amount ty] },
        db.transactions.length + 1)

/-- SELECT * FROM transactions WHERE user_id = ? ORDER BY id DESC LIMIT 1,
i.e. the most recently inserted entry of that user. -/
def last_user_tx (db : DB) (user_id : Nat) : Option TxEntry :=
  (db.transactions.filter (fun t => t.user_id == user_id)).getLast?

/-- db.update_balance: UPDATE users SET balance_sol = balance_sol + ? WHERE
id = ?; then, if the amount is positive and the user's most recent
transaction row has a referral category, also add the amount to
referral_earnings. -/
def update_balance (db : DB) (user_id : Nat) (amount : ℚ) : DB :=
  let db1 : DB :=
    { db with users := db.users.map (fun u =>
        if u.id = user_id then { u with balance_sol := u.balance_sol + amount } else u) }
  if 0 < amount then
    match last_user_tx db1 user_id with
    | some t =>
        if txTypeHasReferral t.tx_type then
          { db1 with users := db1.users.map (fun u =>
              if u.id = user_id then
                { u with referral_earnings := u.referral_earnings + amount } else u) }
        else db1
    | none => db1
  else db1

/-- db.get_user_by_id: SELECT * FROM users WHERE id = ?. -/
def get_user_by_id (db : DB) (user_id : Nat) : Option User :=
  db.users.find? (fun u => u.id == user_id)

/-- The balance_sol column of the user with the given id, when present. -/
def balanceOf (db : DB) (user_id : Nat) : Option ℚ :=
  (get_user_by_id db user_id).map (fun u => u.balance_sol)

/-- The settlement metadata of a transaction (tx.value.transaction.meta):
pre and post balances indexed by the position in the account key list. -/
structure TxMeta where
  pre_balances : List Int
  post_balances : List Int
  deriving DecidableEq

/-- The resolved detail of a transaction (tx.value): optional metadata and
the message's account key list (rendered as address strings). -/
structure TxDetail where
  meta : Option TxMeta
  account_keys : List String
  deriving DecidableEq

/-- payments.process_transaction: skip if the signature is already in the
ledger; resolve the transaction detail; locate the deposit address among
the account keys; compute the lamport delta from pre/post balances; if the
delta is positive, record a deposit ledger entry, credit the balance, and,
when the user has a (truthy) referrer, credit the referrer with the
configured percentage bonus and record a referral_bonus entry tagged
"referral_" ++ signature; return the received SOL amount.  All early-exit
paths (and the exception handler) return None with the store unchanged.
An out-of-range balance index would raise IndexError, caught by the outer
handler, hence it is also a None no-op. -/
def process_transaction (chain : String → Option TxDetail) (db : DB)
    (sig_str : String) (user_id : Nat) (deposit_address : String) :
    DB × Option ℚ :=
  if hasSig db sig_str then (db, none)
  else
    match chain sig_str with
    | none => (db, none)
    | some txd =>
      match txd.meta with
      | none => (db, none)
      | some m =>
        match txd.account_keys.findIdx? (fun k => k == deposit_address) with
        | none => (db, none)
        | some deposit_index =>
          match m.pre_balances.get? deposit_index, m.post_balances.get? deposit_index with
          | some pre, some post =>
            let lamports_received : Int := post - pre
            if lamports_received ≤ 0 then (db, none)
            else
              let sol_received : ℚ := (lamports_received : ℚ) / 1000000000
              let db1 := (record_transaction db user_id sig_str sol_received TxType.deposit).1
              let db2 := update_balance db1 user_id sol_received
              match get_user_by_id db2 user_id with
              | some user =>
                match user.referred_by with
                | some r =>
                  if r = 0 then (db2, some sol_received)
                  else
                    let bonus := sol_received * (db2.referral_bonus_percent / 100)
                    let db3 := update_balance db2 r bonus
                    let db4 := (record_transaction db3 r
                      ("referral_" ++ sig_str) bonus TxType.referral_bonus).1
                    (db4, some sol_received)
                | none => (db2, some sol_received)
              | none => (db2, some sol_received)
          | _, _ => (db, none)

/-- payments.get_recent_transactions: on RPC error (none) or a falsy
resp.value (empty list) the function returns []. -/
def get_recent_transactions (resp : Option (List String)) : List String :=
  match resp with
  | some l => if l = [] then [] else l
  | none => []

/-- The break condition `if last_signature and sig_str == last_signature`
of the loop in monitor_user_deposits (an empty-string watermark is falsy). -/
def breakAtWatermark (last_signature : Option String) (sig_str : String) : Bool :=
  match last_signature with
  | some w => if w = "" then false else sig_str == w
  | none => false

/-- The body of the `for tx_info in reversed(txs)` loop of
monitor_user_deposits, with the `break` at the watermark and the truthiness
test `if amount:` on the result of process_transaction (a None or a zero
amount leaves new_sig unchanged).  The list argument is already reversed
(oldest first). -/
def monitorGo (chain : String → Option TxDetail) (user_id : Nat)
    (deposit_address : String) (last_signature : Option String) :
    DB → Option String → List String → DB × Option String
  | db, new_sig, [] => (db, new_sig)
  | db, new_sig, sig_str :: rest =>
    if breakAtWatermark last_signature sig_str then (db, new_sig)
    else
      let p := process_transaction chain db sig_str user_id deposit_address
      let new_sig' :=
        match p.2 with
        | some a => if a = 0 then new_sig else some sig_str
        | none => new_sig
      monitorGo chain user_id deposit_address last_signature p.1 new_sig' rest

/-- Python `new_sig or last_signature` (an empty-string new_sig is falsy). -/
def pyOrSig (new_sig last_signature : Option String) : Option String :=
  match new_sig with
  | some s => if s = "" then last_signature else some s
  | none => last_signature

/-- payments.monitor_user_deposits: fetch the recent signatures (newest
first); if the fetch is empty, return the watermark unchanged; otherwise
run the reversed loop and return `new_sig or last_signature`. -/
def monitor_user_deposits (resp : Option (List String))
    (chain : String → Option TxDetail) (db : DB) (user_id : Nat)
    (deposit_address : String) (last_signature : Option String) :
    DB × Option String :=
  let txs := get_recent_transactions resp
  if txs = [] then (db, last_signature)
  else
    let r := monitorGo chain user_id deposit_address last_signature db none txs.reverse
    (r.1, pyOrSig r.2 last_signature)

/-- The dictionary returned on success by payments.sweep_user_funds. -/
structure SweepResult where
  user_id : Nat
  address : String
  transferred_sol : ℚ
  tx_sig : String
  deriving DecidableEq

/-- The full outcome of a sweep call: the resulting store, the transfers
submitted to the chain (sender public key and lamport amount; the
destination is always MAIN_WALLET), and the returned value. -/
structure SweepOutcome where
  db : DB
  submitted : List (String × Int)
  result : Option SweepResult
  deriving DecidableEq

/-- payments.sweep_user_funds.  Oracles: main_wallet is the MAIN_WALLET
environment value (None if unset), kp the stored keypair of the user
(public key and base58 private key), decode_ok whether the private key
decodes, chain_lamports the get_balance result (None models an RPC
exception), send_sig the signature returned by send_transaction (None
models a send failure or exception).  Confirmation polling only logs, so
it has no effect on the state.  A failing db.record_transaction is caught
and execution continues (record_transaction itself absorbs the duplicate
case).  The internal balance is then zeroed out when it is below the swept
amount, otherwise reduced by the swept amount. -/
def sweep_user_funds (main_wallet : Option String)
    (kp : Option (String × String)) (decode_ok : Bool)
    (chain_lamports : Option Int) (send_sig : Option String)
    (db : DB) (user_id : Nat) (min_retain_lamports : Int) : SweepOutcome :=
  match main_wallet with
  | none => SweepOutcome.mk db [] none
  | some _ =>
    match kp with
    | none => SweepOutcome.mk db [] none
    | some kpv =>
      if decode_ok = false then SweepOutcome.mk db [] none
      else
        match chain_lamports with
        | none => SweepOutcome.mk db [] none
        | some lamports =>
          if lamports ≤ min_retain_lamports then SweepOutcome.mk db [] none
          else
            let amount_to_transfer : Int := lamports - min_retain_lamports
            let subs : List (String × Int) := [(kpv.1, amount_to_transfer)]
            match send_sig with
            | none => SweepOutcome.mk db subs none
            | some tx_sig =>
              if tx_sig = "" then SweepOutcome.mk db subs none
              else
                let sol_amt : ℚ := (amount_to_transfer : ℚ) / 1000000000
                let db1 := (record_transaction db user_id tx_sig (-sol_amt) TxType.sweep).1
                let db2 :=
                  match get_user_by_id db1 user_id with
                  | some user =>
                    if user.balance_sol < sol_amt then
                      update_balance db1 user_id (-user.balance_sol)
                    else update_balance db1 user_id (-sol_amt)
                  | none => db1
                SweepOutcome.mk db2 subs
                  (some (SweepResult.mk user_id kpv.1 sol_amt tx_sig))

/-- The durable keystore file user_keypairs.json: absent, present but not
readable or parseable as JSON, or parsed content.  The parsed content is
the JSON object as an association list from str(user_id) to the pair
(public_key, private_key). -/
inductive KeystoreFile
  | absent
  | unreadable
  | parsed (entries : List (String × String × String))
  deriving DecidableEq

/-- payments.load_keypairs: the parsed JSON object when the file exists
and parses; an empty dict when the file is absent or reading or parsing
raises (the exception is only logged). -/
def load_keypairs : KeystoreFile → List (String × String × String)
  | KeystoreFile.parsed entries => entries
  | _ => []

/-- payments.save_keypairs: rewrites the whole file with the given dict
(a write failure is only logged; the success path is modelled). -/
def save_keypairs (keypairs : List (String × String × String)) : KeystoreFile :=
  KeystoreFile.parsed keypairs

/-- Python dict assignment d[k] = v on an insertion-ordered dict:
replace in place when the key exists, else append. -/
def dictInsert (m : List (String × String × String)) (k : String)
    (pubpriv : String × String) : List (String × String × String) :=
  if m.any (fun p => p.1 == k) then
    m.map (fun p => if p.1 == k then (k, pubpriv.1, pubpriv.2) else p)
  else m ++ [(k, pubpriv.1, pubpriv.2)]

/-- payments.generate_user_keypair: generate a fresh keypair (here the two
strings are oracles), load the whole keystore, add the new entry under
str(user_id), rewrite the file, and return the pair.  The in-memory
_keypair_cache update is a pure performance layer and not part of the
durable state modelled here. -/
def generate_user_keypair (public_key private_key : String) (user_id : Nat)
    (fs : KeystoreFile) : KeystoreFile × (String × String) :=
  let keypairs := load_keypairs fs
  let keypairs' := dictInsert keypairs (toString user_id) (public_key, private_key)
  (save_keypairs keypairs', (public_key, private_key))

/-- Lookup of a stored keypair by str(user_id) in a keystore file. -/
def keystoreLookup (fs : KeystoreFile) (k : String) : Option (String × String) :=
  ((load_keypairs fs).find? (fun p => p.1 == k)).map (fun p => (p.2.1, p.2.2))

/-
Proof infrastructure: basic facts about the store operations.
-/

/-- record_transaction never changes the users table. -/
theorem record_users (db : DB) (v : Nat) (s : String) (a : ℚ) (ty : TxType) :
    ((record_transaction db v s a ty).1).users = db.users := by
  unfold record_transaction
  split <;> rfl

/-- record_transaction never changes the settings. -/
theorem record_pct (db : DB) (v : Nat) (s : String) (a : ℚ) (ty : TxType) :
    ((record_transaction db v s a ty).1).referral_bonus_percent = db.referral_bonus_percent := by
  unfold record_transaction
  split <;> rfl

/-- On a fresh signature, record_transaction appends exactly one row. -/
theorem record_tx_fresh {db : DB} {s : String} (v : Nat) (a : ℚ) (ty : TxType)
    (h : hasSig db s = false) :
    ((record_transaction db v s a ty).1).transactions
      = db.transactions ++ [TxEntry.mk s v a ty] := by
  unfold record_transaction
  rw [h]
  rfl

/-- On a duplicate signature, record_transaction is a no-op returning 0. -/
theorem record_dup {db : DB} {s : String} (v : Nat) (a : ℚ) (ty : TxType)
    (h : hasSig db s = true) :
    record_transaction db v s a ty = (db, 0) := by
  unfold record_transaction
  rw [h]
  rfl

/-- Whatever happens, record_transaction appends rows only for its own
signature. -/
theorem record_tx_general (db : DB) (v : Nat) (s : String) (a : ℚ) (ty : TxType) :
    ∃ rest, ((record_transaction db v s a ty).1).transactions = db.transactions ++ rest ∧
      ∀ e ∈ rest, e.tx_signature = s := by
  unfold record_transaction
  split
  · exact ⟨[], by simp⟩
  · exact ⟨[TxEntry.mk s v a ty], rfl, by simp⟩

/-- update_balance never changes the ledger. -/
theorem ub_tx (db : DB) (v : Nat) (a : ℚ) :
    (update_balance db v a).transactions = db.transactions := by
  unfold update_balance
  dsimp only
  split
  · split
    · split <;> rfl
    · rfl
  · rfl

/-- update_balance never changes the settings. -/
theorem ub_pct (db : DB) (v : Nat) (a : ℚ) :
    (update_balance db v a).referral_bonus_percent = db.referral_bonus_percent := by
  unfold update_balance
  dsimp only
  split
  · split
    · split <;> rfl
    · rfl
  · rfl

/-- The referral-earnings delta applied by update_balance, as a function of
the state before the call. -/
def earnDelta (db : DB) (v : Nat) (a : ℚ) : ℚ :=
  if 0 < a then
    match last_user_tx db v with
    | some t => if txTypeHasReferral t.tx_type then a else 0
    | none => 0
  else 0

/-- The per-row effect of update_balance. -/
def ubFun (db : DB) (v : Nat) (a : ℚ) (u : User) : User :=
  if u.id = v then
    { u with balance_sol := u.balance_sol + a,
             referral_earnings := u.referral_earnings + earnDelta db v a }
  else u

theorem ubFun_id (db : DB) (v : Nat) (a : ℚ) (u : User) :
    (ubFun db v a u).id = u.id := by
  unfold ubFun
  split <;> rfl

theorem ubFun_referred (db : DB) (v : Nat) (a : ℚ) (u : User) :
    (ubFun db v a u).referred_by = u.referred_by := by
  unfold ubFun
  split <;> rfl

theorem ubFun_balance_eq {u : User} {v : Nat} (db : DB) (a : ℚ) (h : u.id = v) :
    (ubFun db v a u).balance_sol = u.balance_sol + a := by
  unfold ubFun
  rw [if_pos h]

theorem ubFun_balance_ne {u : User} {v : Nat} (db : DB) (a : ℚ) (h : ¬ u.id = v) :
    (ubFun db v a u).balance_sol = u.balance_sol := by
  unfold ubFun
  rw [if_neg h]

/-- last_user_tx reads only the ledger. -/
theorem last_user_tx_congr (us : List User) (db : DB) (v : Nat) :
    last_user_tx { db with users := us } v = last_user_tx db v := rfl

/-- update_balance maps ubFun over the users table. -/
theorem ub_users (db : DB) (v : Nat) (a : ℚ) :
    (update_balance db v a).users = db.users.map (ubFun db v a) := by
  unfold update_balance
  dsimp only
  rw [last_user_tx_congr]
  split
  case isTrue hpos =>
    split
    case h_1 t heq =>
      split
      case isTrue href =>
        rw [List.map_map]
        apply List.map_congr_left
        intro u _
        by_cases h : u.id = v <;>
          simp [Function.comp, ubFun, earnDelta, h, hpos, heq, href]
      case isFalse href =>
        apply List.map_congr_left
        intro u _
        by_cases h : u.id = v <;>
          simp [ubFun, earnDelta, h, hpos, heq, href]
    case h_2 heq =>
      apply List.map_congr_left
      intro u _
      by_cases h : u.id = v <;>
        simp [ubFun, earnDelta, h, hpos, heq]
  case isFalse hpos =>
    apply List.map_congr_left
    intro u _
    by_cases h : u.id = v <;>
      simp [ubFun, earnDelta, h, hpos]

/-- find? over a map by a shape-preserving function. -/
theorem find?_map_pred {α β : Type} (l : List α) (f : α → β) (p : β → Bool)
    (q : α → Bool) (h : ∀ x, p (f x) = q x) :
    (l.map f).find? p = (l.find? q).map f := by
  induction l with
  | nil => rfl
  | cons a l ih =>
    simp only [List.map_cons, List.find?]
    rw [h a]
    cases hq : q a
    · simpa using ih
    · rfl

theorem get_user_by_id_ub (db : DB) (v : Nat) (a : ℚ) (uid : Nat) :
    get_user_by_id (update_balance db v a) uid
      = (get_user_by_id db uid).map (ubFun db v a) := by
  unfold get_user_by_id
  rw [ub_users]
  apply find?_map_pred
  intro u
  rw [ubFun_id]

theorem get_user_by_id_record (db : DB) (v : Nat) (s : String) (a : ℚ)
    (ty : TxType) (uid : Nat) :
    get_user_by_id (record_transaction db v s a ty).1 uid = get_user_by_id db uid := by
  unfold get_user_by_id
  rw [record_users]

theorem hasSig_ub (db : DB) (v : Nat) (a : ℚ) (s : String) :
    hasSig (update_balance db v a) s = hasSig db s := by
  unfold hasSig get_transaction_by_signature
  rw [ub_tx]

theorem hasSig_record (db : DB) (v : Nat) (q : String) (a : ℚ) (ty : TxType)
    (s : String) :
    hasSig (record_transaction db v q a ty).1 s = (hasSig db s || (q == s)) := by
  unfold record_transaction
  split
  case isTrue hdup =>
    cases hqs : (q == s)
    · simp
    · have : q = s := by simpa [beq_iff_eq] using hqs
      subst this
      simp [hdup]
  case isFalse hdup =>
    unfold hasSig get_transaction_by_signature
    dsimp only
    rw [List.find?_append, Option.isSome_or]
    cases hqs : (q == s) <;> simp [List.find?, hqs]

/-- Signatures derived for referral bonuses differ from their base
signature. -/
theorem referral_tag_ne (s : String) : ("referral_" ++ s : String) ≠ s := by
  intro h
  have h2 := congrArg String.length h
  rw [String.length_append] at h2
  have h3 : ("referral_" : String).length = 9 := rfl
  omega

/-- Sum of the ledger amounts of one account. -/
def txSum (l : List TxEntry) (uid : Nat) : ℚ :=
  ((l.filter (fun t => t.user_id == uid)).map (fun t => t.amount_sol)).sum

/-- The conservation invariant: every cached balance equals the sum of the
account's ledger entries. -/
def conserves (db : DB) : Prop :=
  ∀ u ∈ db.users, u.balance_sol = txSum db.transactions u.id

instance (db : DB) : Decidable (conserves db) := by
  unfold conserves
  infer_instance

theorem txSum_append (l1 l2 : List TxEntry) (uid : Nat) :
    txSum (l1 ++ l2) uid = txSum l1 uid + txSum l2 uid := by
  unfold txSum
  rw [List.filter_append, List.map_append, List.sum_append]

theorem txSum_single (e : TxEntry) (uid : Nat) :
    txSum [e] uid = if e.user_id = uid then e.amount_sol else 0 := by
  unfold txSum
  by_cases h : e.user_id = uid
  · simp [List.filter, h]
  · have hb : (e.user_id == uid) = false := by simp [h]
    simp [List.filter, hb, h]

/-- Number of ledger rows carrying a given signature. -/
def sigCount (l : List TxEntry) (s : String) : Nat :=
  (l.filter (fun t => t.tx_signature == s)).length

theorem sigCount_append (l1 l2 : List TxEntry) (s : String) :
    sigCount (l1 ++ l2) s = sigCount l1 s + sigCount l2 s := by
  unfold sigCount
  rw [List.filter_append, List.length_append]

theorem sigCount_single (e : TxEntry) (s : String) :
    sigCount [e] s = if e.tx_signature = s then 1 else 0 := by
  unfold sigCount
  by_cases h : e.tx_signature = s
  · simp [List.filter, h]
  · have hb : (e.tx_signature == s) = false := by simp [h]
    simp [List.filter, hb, h]

theorem sigCount_zero_of_not_hasSig {db : DB} {s : String}
    (h : hasSig db s = false) : sigCount db.transactions s = 0 := by
  unfold hasSig get_transaction_by_signature at h
  unfold sigCount
  rw [List.length_eq_zero, List.filter_eq_nil_iff]
  intro t ht
  have hnone : db.transactions.find? (fun t => t.tx_signature == s) = none := by
    cases hf : db.transactions.find? (fun t => t.tx_signature == s)
    · rfl
    · rw [hf] at h
      simp at h
  exact (List.find?_eq_none.1 hnone) t ht

/-- Appending a ledger row for an account and adding the same amount to
that account's balance preserves conservation (this is the deposit path of
process_transaction: record_transaction then update_balance). -/
theorem conserves_credit (db : DB) (v : Nat) (s : String) (a : ℚ) (ty : TxType)
    (hc : conserves db) (hs : hasSig db s = false) :
    conserves (update_balance (record_transaction db v s a ty).1 v a) := by
  intro u' hu'
  rw [ub_users, record_users] at hu'
  rcases List.mem_map.1 hu' with ⟨u, hu, rfl⟩
  rw [ub_tx, record_tx_fresh v a ty hs, ubFun_id, txSum_append, txSum_single]
  by_cases h : u.id = v
  · rw [ubFun_balance_eq _ _ h, hc u hu]
    simp [h]
  · rw [ubFun_balance_ne _ _ h, hc u hu]
    have : ¬ ((TxEntry.mk s v a ty).user_id = u.id) := fun hh => h (by
      simpa using hh.symm)
    simp [this]

/-- The referral path of process_transaction does the two steps in the
other order (update_balance then record_transaction); conservation is
still re-established once the row is inserted. -/
theorem conserves_credit_swapped (db : DB) (v : Nat) (s : String) (a : ℚ)
    (ty : TxType) (hc : conserves db) (hs : hasSig db s = false) :
    conserves ((record_transaction (update_balance db v a) v s a ty).1) := by
  intro u' hu'
  have hs' : hasSig (update_balance db v a) s = false := by rw [hasSig_ub]; exact hs
  rw [record_users, ub_users] at hu'
  rcases List.mem_map.1 hu' with ⟨u, hu, rfl⟩
  rw [record_tx_fresh v a ty hs', ub_tx, ubFun_id, txSum_append, txSum_single]
  by_cases h : u.id = v
  · rw [ubFun_balance_eq _ _ h, hc u hu]
    simp [h]
  · rw [ubFun_balance_ne _ _ h, hc u hu]
    have : ¬ ((TxEntry.mk s v a ty).user_id = u.id) := fun hh => h (by
      simpa using hh.symm)
    simp [this]

/-- Auxiliary: recording one more row on top of a state whose ledger is an
extension by one row yields the two rows consed, with any extra rows
carrying the new signature. -/
theorem record_append_cons (dbx dby : DB) (e : TxEntry) (v : Nat) (q : String)
    (b : ℚ) (ty : TxType)
    (hx : dbx.transactions = dby.transactions ++ [e]) :
    ∃ rest, ((record_transaction dbx v q b ty).1).transactions
        = dby.transactions ++ e :: rest ∧ ∀ x ∈ rest, x.tx_signature = q := by
  obtain ⟨rest, hrest, hall⟩ := record_tx_general dbx v q b ty
  refine ⟨rest, ?_, hall⟩
  rw [hrest, hx, List.append_assoc]
  rfl

/-- Inversion: a crediting process_transaction call implies the signature
was fresh and the resulting ledger is the old one extended by the deposit
row plus possibly a referral row tagged with the derived signature. -/
theorem process_transaction_some (chain : String → Option TxDetail) (db : DB)
    (s : String) (uid : Nat) (addr : String) (db1 : DB) (a : ℚ)
    (h : process_transaction chain db s uid addr = (db1, some a)) :
    hasSig db s = false ∧
    ∃ rest, db1.transactions = db.transactions ++ TxEntry.mk s uid a TxType.deposit :: rest ∧
      ∀ e ∈ rest, e.tx_signature = ("referral_" ++ s : String) := by
  unfold process_transaction at h
  split at h
  case isTrue => simp at h
  case isFalse hfresh =>
    have hfresh' : hasSig db s = false := by
      cases hv : hasSig db s
      · rfl
      · exact absurd hv hfresh
    refine ⟨hfresh', ?_⟩
    split at h
    · simp at h
    case h_2 txd =>
      split at h
      · simp at h
      case h_2 m =>
        split at h
        · simp at h
        case h_2 i =>
          split at h
          case h_2 => simp at h
          case h_1 pre post hpre hpost =>
            dsimp only at h
            split at h
            · simp at h
            case isFalse hpos =>
              split at h
              case h_1 user huser =>
                split at h
                case h_1 r hr =>
                  split at h
                  case isTrue =>
                    rw [Prod.mk.injEq] at h
                    obtain ⟨hdb, ha⟩ := h
                    obtain rfl := Option.some.inj ha
                    subst hdb
                    refine ⟨[], ?_, by simp⟩
                    rw [ub_tx, record_tx_fresh uid _ TxType.deposit hfresh']
                  case isFalse =>
                    rw [Prod.mk.injEq] at h
                    obtain ⟨hdb, ha⟩ := h
                    obtain rfl := Option.some.inj ha
                    subst hdb
                    exact record_append_cons _ _ _ _ _ _ _
                      (by rw [ub_tx, ub_tx, record_tx_fresh uid _ TxType.deposit hfresh'])
                case h_2 =>
                  rw [Prod.mk.injEq] at h
                  obtain ⟨hdb, ha⟩ := h
                  obtain rfl := Option.some.inj ha
                  subst hdb
                  refine ⟨[], ?_, by simp⟩
                  rw [ub_tx, record_tx_fresh uid _ TxType.deposit hfresh']
              case h_2 huser =>
                rw [Prod.mk.injEq] at h
                obtain ⟨hdb, ha⟩ := h
                obtain rfl := Option.some.inj ha
                subst hdb
                refine ⟨[], ?_, by simp⟩
                rw [ub_tx, record_tx_fresh uid _ TxType.deposit hfresh']

/-
Claim theorems.
-/

/-- C1: attribution is idempotent per signature: if a ledger row with the
signature already exists, process_transaction is a no-op on the store and
reports the duplicate (None, no credit); and after a crediting call for a
signature, a second call for the same signature is a no-op, leaving
exactly one ledger row carrying that signature (the single deposit entry
and the single balance credit of the first call). -/
theorem c1_attribution_idempotent (chain : String → Option TxDetail) (db : DB)
    (s : String) (uid : Nat) (addr : String) :
    (hasSig db s = true → process_transaction chain db s uid addr = (db, none)) ∧
    (∀ db1 a, process_transaction chain db s uid addr = (db1, some a) →
      process_transaction chain db1 s uid addr = (db1, none) ∧
      sigCount db1.transactions s = 1) := by
  constructor
  · intro h
    unfold process_transaction
    rw [h]
    rfl
  · intro db1 a h
    obtain ⟨hfresh, rest, hrest, hall⟩ :=
      process_transaction_some chain db s uid addr db1 a h
    have hmem : TxEntry.mk s uid a TxType.deposit ∈ db1.transactions := by
      rw [hrest]
      simp
    have hsig1 : hasSig db1 s = true := by
      unfold hasSig get_transaction_by_signature
      simp only [List.find?_isSome]
      exact ⟨TxEntry.mk s uid a TxType.deposit, hmem, by simp⟩
    constructor
    · unfold process_transaction
      rw [hsig1]
      rfl
    · have hcons : TxEntry.mk s uid a TxType.deposit :: rest
          = [TxEntry.mk s uid a TxType.deposit] ++ rest := rfl
      have hrest0 : sigCount rest s = 0 := by
        unfold sigCount
        rw [List.length_eq_zero, List.filter_eq_nil_iff]
        intro x hx
        simp only [beq_iff_eq]
        rw [hall x hx]
        exact referral_tag_ne s
      rw [hrest, sigCount_append, sigCount_zero_of_not_hasSig hfresh, hcons,
        sigCount_append, sigCount_single, hrest0]
      simp

/-- Concrete chain oracle: one finalized transfer of 2 SOL to addr1. -/
def chainC1 : String → Option TxDetail := fun t =>
  if t = "sig1" then some (TxDetail.mk (some (TxMeta.mk [0] [2000000000])) ["addr1"]) else none

/-- Store with one account and an empty ledger. -/
def dbC1 : DB := DB.mk [User.mk 1 0 none 0] [] 5

/-- State after the first attribution of sig1 in dbC1. -/
def dbC1' : DB := DB.mk [User.mk 1 2 none 0] [TxEntry.mk "sig1" 1 2 TxType.deposit] 5

/-- Witness for C1 at a concrete input: replaying sig1 is a no-op and the
ledger holds exactly one row for it. -/
theorem c1_attribution_idempotent_witness :
    process_transaction chainC1 dbC1' "sig1" 1 "addr1" = (dbC1', none) ∧
    sigCount dbC1'.transactions "sig1" = 1 :=
  (c1_attribution_idempotent chainC1 dbC1 "sig1" 1 "addr1").2 dbC1' 2 (by
    norm_num [process_transaction, chainC1, dbC1, dbC1', hasSig, get_transaction_by_signature,
      record_transaction, update_balance, last_user_tx, get_user_by_id, List.find?,
      List.findIdx?, List.filter, txTypeHasReferral])

/-- C5: a transfer whose pre/post delta at the watched address is not
positive yields no ledger entry and no balance change: process_transaction
returns the store unchanged with None. -/
theorem c5_nonpositive_delta_no_credit (chain : String → Option TxDetail)
    (db : DB) (s : String) (uid : Nat) (addr : String) (txd : TxDetail)
    (m : TxMeta) (i : Nat) (pre post : Int)
    (h3 : chain s = some txd) (h4 : txd.meta = some m)
    (h5 : txd.account_keys.findIdx? (fun k => k == addr) = some i)
    (h6 : m.pre_balances.get? i = some pre)
    (h7 : m.post_balances.get? i = some post)
    (hle : post - pre ≤ 0) :
    process_transaction chain db s uid addr = (db, none) := by
  unfold process_transaction
  split
  · rfl
  · simp only [h3, h4, h5, h6, h7]
    rw [if_pos hle]

/-- Chain oracle for the C5 witness: a transfer with zero delta. -/
def chainC5 : String → Option TxDetail := fun t =>
  if t = "sig5" then some (TxDetail.mk (some (TxMeta.mk [7] [7])) ["addr5"]) else none

/-- Witness for C5 at a concrete input. -/
theorem c5_nonpositive_delta_no_credit_witness :
    process_transaction chainC5 dbC1 "sig5" 1 "addr5" = (dbC1, none) :=
  c5_nonpositive_delta_no_credit chainC5 dbC1 "sig5" 1 "addr5"
    (TxDetail.mk (some (TxMeta.mk [7] [7])) ["addr5"]) (TxMeta.mk [7] [7]) 0 7 7
    (by decide) (by decide) (by decide) (by decide) (by decide) (by decide)

/-- Recording a row for an account id that has no user row preserves
conservation (the new ledger row belongs to no present user). -/
theorem conserves_record_nouser (db : DB) (v : Nat) (s : String) (a : ℚ)
    (ty : TxType) (hc : conserves db) (hu : get_user_by_id db v = none) :
    conserves ((record_transaction db v s a ty).1) := by
  by_cases hsig : hasSig db s = true
  · rw [record_dup v a ty hsig]
    exact hc
  · have hfr := record_tx_fresh v a ty (by
      cases hv : hasSig db s
      · rfl
      · exact absurd hv hsig)
    intro u' hu'
    rw [record_users] at hu'
    rw [hfr, txSum_append, txSum_single]
    have hne : ¬ ((TxEntry.mk s v a ty).user_id = u'.id) := by
      intro hh
      have hnone := List.find?_eq_none.1 hu u' hu'
      simp only [beq_iff_eq] at hnone
      exact hnone (by simpa using hh.symm)
    simp [hne]
    exact hc u' hu'

/-- Store used by the C2 counterexample: one account with zero balance,
empty ledger, conservation holds. -/
def dbC2 : DB := DB.mk [User.mk 1 0 none 0] [] 5

/-- C2 counterexample: the claim "after every core operation the cached
balance equals the sum of the account's ledger rows" fails on the sweep
path.  With an on-chain balance of 1000005000 lamports and a retention
floor of 5000, sweep_user_funds sweeps 1 SOL, records a -1 sweep row, but
only zeroes the internal balance (which was 0), so after the call the
balance (0) differs from the ledger sum (-1). -/
theorem c2_conservation_counterexample :
    conserves dbC2 ∧
    ¬ conserves (sweep_user_funds (some "MW") (some ("pub1", "priv1")) true
        (some 1000005000) (some "ts1") dbC2 1 5000).db := by
  constructor
  · intro u hu
    norm_num [dbC2] at hu
    simp [hu, txSum, dbC2]
  · have hres : (sweep_user_funds (some "MW") (some ("pub1", "priv1")) true
        (some 1000005000) (some "ts1") dbC2 1 5000).db
        = DB.mk [User.mk 1 0 none 0] [TxEntry.mk "ts1" 1 (-1) TxType.sweep] 5 := by
      norm_num [sweep_user_funds, record_transaction, hasSig, get_transaction_by_signature,
        get_user_by_id, update_balance, last_user_tx, txTypeHasReferral, dbC2,
        List.find?, List.filter]
      rw [if_neg (show ¬ (("ts1" : String) = "") by decide)]
    intro hc
    rw [hres] at hc
    have h1 := hc (User.mk 1 0 none 0) (by simp)
    norm_num [txSum, List.filter] at h1

/-- C2 amended: conservation is preserved by deposit attribution and
referral credit (process_transaction, provided the derived referral tag is
not already a ledger signature), and by a sweep whose swept amount does
not exceed the account's internal balance; the original claim fails when
the swept amount exceeds the internal balance, because the sweep records
the full negative amount but only zeroes the balance. -/
theorem c2_conservation_amended :
    (∀ (chain : String → Option TxDetail) (db : DB) (s : String) (uid : Nat)
       (addr : String),
      conserves db → hasSig db ("referral_" ++ s) = false →
      conserves (process_transaction chain db s uid addr).1) ∧
    (∀ (mw : Option String) (kp : Option (String × String)) (dec : Bool)
       (lam : Option Int) (ts : Option String) (db : DB) (uid : Nat) (mr : Int),
      conserves db →
      (∀ t, ts = some t → hasSig db t = false) →
      (∀ u l, get_user_by_id db uid = some u → lam = some l →
        ((l - mr : Int) : ℚ) / 1000000000 ≤ u.balance_sol) →
      conserves (sweep_user_funds mw kp dec lam ts db uid mr).db) := by
  constructor
  · intro chain db s uid addr hc h2
    unfold process_transaction
    split
    case isTrue => exact hc
    case isFalse hfresh =>
      have hfresh' : hasSig db s = false := by
        cases hv : hasSig db s
        · rfl
        · exact absurd hv hfresh
      split
      · exact hc
      case h_2 txd =>
        split
        · exact hc
        case h_2 m =>
          split
          · exact hc
          case h_2 i =>
            split
            case h_2 => exact hc
            case h_1 pre post =>
              dsimp only
              split
              · exact hc
              case isFalse hpos =>
                split
                case h_1 user huser =>
                  split
                  case h_1 r hr =>
                    split
                    case isTrue =>
                      exact conserves_credit db uid s _ TxType.deposit hc hfresh'
                    case isFalse =>
                      apply conserves_credit_swapped
                      · exact conserves_credit db uid s _ TxType.deposit hc hfresh'
                      · rw [hasSig_ub, hasSig_record, h2]
                        simp only [Bool.false_or, beq_eq_false_iff_ne]
                        exact Ne.symm (referral_tag_ne s)
                  case h_2 =>
                    exact conserves_credit db uid s _ TxType.deposit hc hfresh'
                case h_2 =>
                  exact conserves_credit db uid s _ TxType.deposit hc hfresh'
  · intro mw kp dec lam ts db uid mr hc hts hbal
    unfold sweep_user_funds
    split
    · exact hc
    case h_2 =>
      split
      · exact hc
      case h_2 kpv =>
        split
        case isTrue => exact hc
        case isFalse =>
          split
          · exact hc
          case h_2 lamports =>
            split
            case isTrue => exact hc
            case isFalse hgt =>
              dsimp only
              split
              · exact hc
              case h_2 tx_sig =>
                split
                case isTrue => exact hc
                case isFalse hne =>
                  dsimp only
                  have hfr : hasSig db tx_sig = false := hts tx_sig rfl
                  split
                  case h_1 user huser =>
                    rw [get_user_by_id_record] at huser
                    split
                    case isTrue hlt =>
                      exact absurd (hbal user lamports huser rfl) (not_le.2 hlt)
                    case isFalse =>
                      exact conserves_credit db uid tx_sig
                        (-(((lamports - mr : Int) : ℚ) / 1000000000)) TxType.sweep hc hfr
                  case h_2 huser =>
                    rw [get_user_by_id_record] at huser
                    exact conserves_record_nouser db uid tx_sig _ TxType.sweep hc huser

/-- Witness for the amended C2 at a concrete input. -/
theorem c2_conservation_amended_witness :
    conserves (process_transaction chainC1 dbC1 "sig1" 1 "addr1").1 :=
  c2_conservation_amended.1 chainC1 dbC1 "sig1" 1 "addr1"
    (by
      intro u hu
      norm_num [dbC1] at hu
      simp [hu, txSum, dbC1])
    (by decide)

/-- Chain oracle of the C3 scenario: s2 is a finalized 1 SOL deposit. -/
def chainC3 : String → Option TxDetail := fun t =>
  if t = "s2" then some (TxDetail.mk (some (TxMeta.mk [0] [1000000000])) ["addr1"]) else none

/-- Store of the C3 scenario: signature w was attributed in an earlier
cycle (watermark w). -/
def dbC3 : DB := DB.mk [User.mk 1 2 none 0] [TxEntry.mk "w" 1 2 TxType.deposit] 5

/-- C3 evaluated at the failing input: the fetched history (newest first)
is [s2, w] with watermark w; s2 is newer than w, unseen, and would credit
1 SOL, yet the cycle leaves the store unchanged and the watermark at w,
because the oldest-to-newest loop breaks upon reaching the watermark
before ever visiting the newer s2.  The claim says every transfer newer
than the watermark in the fetched history is attributed. -/
theorem c3_watermark_break_skips_newer :
    monitor_user_deposits (some ["s2", "w"]) chainC3 dbC3 1 "addr1" (some "w")
      = (dbC3, some "w") ∧
    (process_transaction chainC3 dbC3 "s2" 1 "addr1").2 = some 1 ∧
    hasSig dbC3 "s2" = false := by
  refine ⟨?_, ?_, by decide⟩
  · norm_num +decide [monitor_user_deposits, get_recent_transactions, monitorGo,
      breakAtWatermark, pyOrSig, List.reverse]
  · norm_num +decide [process_transaction, chainC3, dbC3, hasSig, get_transaction_by_signature,
      record_transaction, update_balance, last_user_tx, get_user_by_id, List.find?,
      List.findIdx?, List.filter, txTypeHasReferral]

/-- The state after the deposit half of a credit: ledger row plus balance
credit for the depositing account. -/
def depositState (db : DB) (s : String) (uid : Nat) (amt : ℚ) : DB :=
  update_balance (record_transaction db uid s amt TxType.deposit).1 uid amt

/-- The state after the referral half of a credit: balance credit for the
referrer, then the referral_bonus ledger row tagged with the derived
signature. -/
def referralState (db2 : DB) (s : String) (r : Nat) (bonus : ℚ) : DB :=
  (record_transaction (update_balance db2 r bonus) r ("referral_" ++ s)
    bonus TxType.referral_bonus).1

/-- Full computation of a crediting process_transaction call on a referred
account, under explicit resolution hypotheses. -/
theorem process_transaction_credit_referral (chain : String → Option TxDetail)
    (db : DB) (s addr : String) (uid : Nat) (txd : TxDetail) (m : TxMeta)
    (i : Nat) (pre post : Int) (u : User) (r : Nat)
    (h1 : hasSig db s = false)
    (h3 : chain s = some txd) (h4 : txd.meta = some m)
    (h5 : txd.account_keys.findIdx? (fun k => k == addr) = some i)
    (h6 : m.pre_balances.get? i = some pre)
    (h7 : m.post_balances.get? i = some post)
    (h8 : pre < post)
    (h9 : get_user_by_id db uid = some u)
    (h10 : u.referred_by = some r)
    (h11 : r ≠ 0) :
    process_transaction chain db s uid addr
      = (referralState (depositState db s uid (((post - pre : Int) : ℚ) / 1000000000)) s r
          ((((post - pre : Int) : ℚ) / 1000000000) * (db.referral_bonus_percent / 100)),
         some (((post - pre : Int) : ℚ) / 1000000000)) := by
  have hnot : ¬ ((post - pre : Int) ≤ 0) := by omega
  unfold process_transaction
  rw [if_neg (show ¬ (hasSig db s = true) by rw [h1]; exact Bool.false_ne_true)]
  rw [h3]
  dsimp only
  rw [h4]
  dsimp only
  rw [h5]
  dsimp only
  rw [h6, h7]
  dsimp only
  rw [if_neg hnot]
  rw [get_user_by_id_ub, get_user_by_id_record, h9]
  dsimp only [Option.map]
  rw [ubFun_referred, h10]
  dsimp only
  rw [if_neg h11]
  unfold referralState depositState
  rw [ub_pct, record_pct]

/-- C4: attributing a finalized unseen transfer with positive delta to an
account with a (truthy) registered referrer creates exactly one deposit
row of the received amount for the account and exactly one referral_bonus
row of amount * (referral_bonus_percent / 100) for the referrer, the
latter tagged "referral_" ++ signature (a distinct signature, so it is
independently deduplicated by the storage layer). -/
theorem c4_referral_fanout (chain : String → Option TxDetail)
    (db : DB) (s addr : String) (uid : Nat) (txd : TxDetail) (m : TxMeta)
    (i : Nat) (pre post : Int) (u : User) (r : Nat)
    (h1 : hasSig db s = false)
    (h2 : hasSig db ("referral_" ++ s) = false)
    (h3 : chain s = some txd) (h4 : txd.meta = some m)
    (h5 : txd.account_keys.findIdx? (fun k => k == addr) = some i)
    (h6 : m.pre_balances.get? i = some pre)
    (h7 : m.post_balances.get? i = some post)
    (h8 : pre < post)
    (h9 : get_user_by_id db uid = some u)
    (h10 : u.referred_by = some r)
    (h11 : r ≠ 0) :
    (process_transaction chain db s uid addr).2
        = some (((post - pre : Int) : ℚ) / 1000000000) ∧
    (process_transaction chain db s uid addr).1.transactions
        = db.transactions
          ++ [TxEntry.mk s uid (((post - pre : Int) : ℚ) / 1000000000) TxType.deposit,
              TxEntry.mk ("referral_" ++ s) r
                ((((post - pre : Int) : ℚ) / 1000000000) * (db.referral_bonus_percent / 100))
                TxType.referral_bonus] ∧
    sigCount (process_transaction chain db s uid addr).1.transactions s = 1 ∧
    sigCount (process_transaction chain db s uid addr).1.transactions ("referral_" ++ s) = 1 := by
  have hrun := process_transaction_credit_referral chain db s addr uid txd m i pre post u r
    h1 h3 h4 h5 h6 h7 h8 h9 h10 h11
  have hrefsig : hasSig (update_balance (depositState db s uid
      (((post - pre : Int) : ℚ) / 1000000000)) r
      ((((post - pre : Int) : ℚ) / 1000000000) * (db.referral_bonus_percent / 100)))
      ("referral_" ++ s) = false := by
    unfold depositState
    rw [hasSig_ub, hasSig_ub, hasSig_record, h2]
    simp only [Bool.false_or, beq_eq_false_iff_ne]
    exact Ne.symm (referral_tag_ne s)
  have htx : (process_transaction chain db s uid addr).1.transactions
      = db.transactions
        ++ [TxEntry.mk s uid (((post - pre : Int) : ℚ) / 1000000000) TxType.deposit,
            TxEntry.mk ("referral_" ++ s) r
              ((((post - pre : Int) : ℚ) / 1000000000) * (db.referral_bonus_percent / 100))
              TxType.referral_bonus] := by
    rw [hrun]
    unfold referralState
    rw [record_tx_fresh _ _ _ hrefsig, ub_tx]
    unfold depositState
    rw [ub_tx, record_tx_fresh _ _ _ h1, List.append_assoc]
    rfl
  refine ⟨by rw [hrun], htx, ?_, ?_⟩
  · rw [htx, sigCount_append, sigCount_zero_of_not_hasSig h1,
      show ([TxEntry.mk s uid (((post - pre : Int) : ℚ) / 1000000000) TxType.deposit,
        TxEntry.mk ("referral_" ++ s) r
          ((((post - pre : Int) : ℚ) / 1000000000) * (db.referral_bonus_percent / 100))
          TxType.referral_bonus] : List TxEntry)
        = [TxEntry.mk s uid (((post - pre : Int) : ℚ) / 1000000000) TxType.deposit]
          ++ [TxEntry.mk ("referral_" ++ s) r
              ((((post - pre : Int) : ℚ) / 1000000000) * (db.referral_bonus_percent / 100))
              TxType.referral_bonus] from rfl,
      sigCount_append, sigCount_single, sigCount_single]
    rw [if_pos rfl, if_neg (referral_tag_ne s)]
  · rw [htx, sigCount_append, sigCount_zero_of_not_hasSig h2,
      show ([TxEntry.mk s uid (((post - pre : Int) : ℚ) / 1000000000) TxType.deposit,
        TxEntry.mk ("referral_" ++ s) r
          ((((post - pre : Int) : ℚ) / 1000000000) * (db.referral_bonus_percent / 100))
          TxType.referral_bonus] : List TxEntry)
        = [TxEntry.mk s uid (((post - pre : Int) : ℚ) / 1000000000) TxType.deposit]
          ++ [TxEntry.mk ("referral_" ++ s) r
              ((((post - pre : Int) : ℚ) / 1000000000) * (db.referral_bonus_percent / 100))
              TxType.referral_bonus] from rfl,
      sigCount_append, sigCount_single, sigCount_single]
    rw [if_neg (fun hh => referral_tag_ne s hh.symm), if_pos rfl]

/-- Chain oracle of the C4 witness: a finalized 10 SOL deposit. -/
def chainC4 : String → Option TxDetail := fun t =>
  if t = "s4" then some (TxDetail.mk (some (TxMeta.mk [0] [10000000000])) ["a4"]) else none

/-- Store of the C4 witness: account 1 referred by account 2. -/
def dbC4 : DB := DB.mk [User.mk 1 0 (some 2) 0, User.mk 2 0 none 0] [] 5

/-- Witness for C4 at a concrete input. -/
theorem c4_referral_fanout_witness :
    (process_transaction chainC4 dbC4 "s4" 1 "a4").2
        = some (((10000000000 - 0 : Int) : ℚ) / 1000000000) ∧
    (process_transaction chainC4 dbC4 "s4" 1 "a4").1.transactions
        = dbC4.transactions
          ++ [TxEntry.mk "s4" 1 (((10000000000 - 0 : Int) : ℚ) / 1000000000) TxType.deposit,
              TxEntry.mk ("referral_" ++ "s4") 2
                ((((10000000000 - 0 : Int) : ℚ) / 1000000000) * (dbC4.referral_bonus_percent / 100))
                TxType.referral_bonus] ∧
    sigCount (process_transaction chainC4 dbC4 "s4" 1 "a4").1.transactions "s4" = 1 ∧
    sigCount (process_transaction chainC4 dbC4 "s4" 1 "a4").1.transactions ("referral_" ++ "s4") = 1 :=
  c4_referral_fanout chainC4 dbC4 "s4" "a4" 1
    (TxDetail.mk (some (TxMeta.mk [0] [10000000000])) ["a4"]) (TxMeta.mk [0] [10000000000])
    0 0 10000000000 (User.mk 1 0 (some 2) 0) 2
    rfl rfl rfl rfl rfl rfl rfl (by decide) rfl rfl (by decide)

/-- A call whose settlement detail is unavailable is a no-op returning
None with the store unchanged. -/
theorem process_transaction_unresolved (chain : String → Option TxDetail)
    (db : DB) (s : String) (uid : Nat) (addr : String) (hchain : chain s = none) :
    process_transaction chain db s uid addr = (db, none) := by
  unfold process_transaction
  split
  · rfl
  · rw [hchain]

/-- Through the monitor loop, new_sig is never set to a signature whose
settlement detail is unavailable. -/
theorem monitorGo_newSig_ne (chain : String → Option TxDetail) (uid : Nat)
    (addr : String) (lastSig : Option String) (s : String)
    (hchain : chain s = none) :
    ∀ (l : List String) (db : DB) (newSig : Option String), newSig ≠ some s →
      (monitorGo chain uid addr lastSig db newSig l).2 ≠ some s := by
  intro l
  induction l with
  | nil =>
    intro db newSig h
    simpa [monitorGo] using h
  | cons t rest ih =>
    intro db newSig h
    simp only [monitorGo]
    split
    · exact h
    · apply ih
      by_cases hts : t = s
      · subst hts
        rw [process_transaction_unresolved chain db t uid addr hchain]
        exact h
      · cases hp : (process_transaction chain db t uid addr).2 with
        | none => simpa [hp] using h
        | some a =>
          by_cases ha : a = 0
          · simpa [hp, ha] using h
          · simp only [hp, ha, if_neg]
            intro hh
            exact hts (Option.some.inj hh)

/-- Python `a or b` never yields a value that neither a nor b holds. -/
theorem pyOrSig_ne (a b : Option String) (s : String) (ha : a ≠ some s)
    (hb : b ≠ some s) : pyOrSig a b ≠ some s := by
  cases a with
  | none => simpa [pyOrSig] using hb
  | some v =>
    by_cases hv : v = ""
    · simpa [pyOrSig, hv] using hb
    · simpa [pyOrSig, hv] using ha

/-- Chain oracle that never resolves any signature (settlement detail
unavailable). -/
def chainRetryC6 : String → Option TxDetail := fun _ => none

/-- Chain oracle with a finalized zero-delta transfer for s6. -/
def chainZeroC6 : String → Option TxDetail := fun t =>
  if t = "s6" then some (TxDetail.mk (some (TxMeta.mk [5] [5])) ["a6"]) else none

/-- C6 counterexample: the "retry later" outcome is not distinguishable
from a zero-amount deposit.  On the same store, attributing a signature
whose settlement detail is unavailable returns exactly the same result
(store unchanged, None) as attributing a finalized transfer with zero
delta, refuting the claimed distinguishability of the two outcomes. -/
theorem c6_retry_indistinguishable_counterexample :
    process_transaction chainRetryC6 dbC1 "s6" 1 "a6"
      = process_transaction chainZeroC6 dbC1 "s6" 1 "a6" ∧
    process_transaction chainRetryC6 dbC1 "s6" 1 "a6" = (dbC1, none) := by
  exact ⟨rfl, rfl⟩

/-- C6 amended: when the settlement detail for a signature is unavailable,
attribution returns None with the store unchanged (creating no ledger
entry) — the same outcome as a zero-amount transfer, hence not a
distinguishable variant — and the monitor cycle never advances the
watermark to that signature (it can only be set to signatures whose
attribution credited an amount). -/
theorem c6_unresolved_deferred_amended (chain : String → Option TxDetail)
    (resp : Option (List String)) (db : DB) (uid : Nat) (addr : String)
    (lastSig : Option String) (s : String)
    (hchain : chain s = none) (hlast : lastSig ≠ some s) :
    process_transaction chain db s uid addr = (db, none) ∧
    (monitor_user_deposits resp chain db uid addr lastSig).2 ≠ some s := by
  refine ⟨process_transaction_unresolved chain db s uid addr hchain, ?_⟩
  unfold monitor_user_deposits
  dsimp only
  split
  · exact hlast
  · dsimp only
    exact pyOrSig_ne _ _ _
      (monitorGo_newSig_ne chain uid addr lastSig s hchain _ db none (by simp)) hlast

/-- Witness for the amended C6 at a concrete input. -/
theorem c6_unresolved_deferred_amended_witness :
    process_transaction chainRetryC6 dbC1 "s6" 1 "a6" = (dbC1, none) ∧
    (monitor_user_deposits (some ["s6"]) chainRetryC6 dbC1 1 "a6" none).2 ≠ some "s6" :=
  c6_unresolved_deferred_amended chainRetryC6 (some ["s6"]) dbC1 1 "a6" none "s6"
    rfl (by simp)

/-- C7: an errored (None) or empty recent-transfer response makes the
monitor cycle a no-op: the store is unchanged, no ledger entry is created,
and the returned watermark is the unchanged input watermark. -/
theorem c7_empty_fetch_no_info (resp : Option (List String))
    (chain : String → Option TxDetail) (db : DB) (uid : Nat) (addr : String)
    (lastSig : Option String) (h : resp = none ∨ resp = some []) :
    monitor_user_deposits resp chain db uid addr lastSig = (db, lastSig) := by
  rcases h with rfl | rfl <;> rfl

/-- Witness for C7 at a concrete input. -/
theorem c7_empty_fetch_no_info_witness :
    monitor_user_deposits none chainRetryC6 dbC1 1 "a6" (some "w") = (dbC1, some "w") :=
  c7_empty_fetch_no_info none chainRetryC6 dbC1 1 "a6" (some "w") (Or.inl rfl)

/-- C8: when the on-chain balance does not exceed the retention floor,
sweep_user_funds submits no transfer, records no ledger entry, changes no
balance, and returns None. -/
theorem c8_sweep_floor (mw : String) (kp : String × String)
    (send_sig : Option String) (db : DB) (uid : Nat) (lam mr : Int)
    (h : lam ≤ mr) :
    sweep_user_funds (some mw) (some kp) true (some lam) send_sig db uid mr
      = SweepOutcome.mk db [] none := by
  unfold sweep_user_funds
  dsimp only
  rw [if_neg (show ¬ (true = false) by decide), if_pos h]

/-- Witness for C8 at a concrete input. -/
theorem c8_sweep_floor_witness :
    sweep_user_funds (some "MW") (some ("p8", "k8")) true (some 4000) (some "t8") dbC1 1 5000
      = SweepOutcome.mk dbC1 [] none :=
  c8_sweep_floor "MW" ("p8", "k8") (some "t8") dbC1 1 4000 5000 (by decide)

/-- C9: a successful sweep of S = (lamports - min_retain) / 1e9 SOL
records exactly one sweep ledger row of amount -S, reduces the cached
balance by the lesser of (current internal balance, S), and the resulting
balance is never below zero. -/
theorem c9_sweep_success (mw : String) (kp : String × String) (lam : Int)
    (ts : String) (db : DB) (uid : Nat) (mr : Int) (u : User)
    (hgt : mr < lam) (hts : ts ≠ "") (hfresh : hasSig db ts = false)
    (hu : get_user_by_id db uid = some u) :
    (sweep_user_funds (some mw) (some kp) true (some lam) (some ts) db uid mr).result
        = some (SweepResult.mk uid kp.1 (((lam - mr : Int) : ℚ) / 1000000000) ts) ∧
    (sweep_user_funds (some mw) (some kp) true (some lam) (some ts) db uid mr).db.transactions
        = db.transactions
          ++ [TxEntry.mk ts uid (-(((lam - mr : Int) : ℚ) / 1000000000)) TxType.sweep] ∧
    balanceOf (sweep_user_funds (some mw) (some kp) true (some lam) (some ts) db uid mr).db uid
        = some (u.balance_sol - min u.balance_sol (((lam - mr : Int) : ℚ) / 1000000000)) ∧
    (0 : ℚ) ≤ u.balance_sol - min u.balance_sol (((lam - mr : Int) : ℚ) / 1000000000) := by
  have hu' : db.users.find? (fun x => x.id == uid) = some u := hu
  have hid : u.id = uid := by
    have hb := List.find?_some hu'
    simpa [beq_iff_eq] using hb
  have hstep : sweep_user_funds (some mw) (some kp) true (some lam) (some ts) db uid mr
      = SweepOutcome.mk
          (if u.balance_sol < ((lam - mr : Int) : ℚ) / 1000000000 then
            update_balance (record_transaction db uid ts
              (-(((lam - mr : Int) : ℚ) / 1000000000)) TxType.sweep).1 uid (-u.balance_sol)
          else
            update_balance (record_transaction db uid ts
              (-(((lam - mr : Int) : ℚ) / 1000000000)) TxType.sweep).1 uid
              (-(((lam - mr : Int) : ℚ) / 1000000000)))
          [(kp.1, lam - mr)]
          (some (SweepResult.mk uid kp.1 (((lam - mr : Int) : ℚ) / 1000000000) ts)) := by
    unfold sweep_user_funds
    dsimp only
    rw [if_neg (show ¬ (true = false) by decide), if_neg (not_le.2 hgt), if_neg hts]
    rw [get_user_by_id_record, hu]
  refine ⟨by rw [hstep], ?_, ?_, ?_⟩
  · rw [hstep]
    dsimp only
    split <;> rw [ub_tx, record_tx_fresh uid _ TxType.sweep hfresh]
  · rw [hstep]
    dsimp only
    split
    case isTrue hlt =>
      unfold balanceOf
      rw [get_user_by_id_ub, get_user_by_id_record, hu]
      dsimp only [Option.map]
      rw [ubFun_balance_eq _ _ hid, min_eq_left (le_of_lt hlt)]
      congr 1
      ring
    case isFalse hlt =>
      unfold balanceOf
      rw [get_user_by_id_ub, get_user_by_id_record, hu]
      dsimp only [Option.map]
      rw [ubFun_balance_eq _ _ hid, min_eq_right (not_lt.1 hlt)]
      congr 1
      ring
  · rcases le_or_lt u.balance_sol (((lam - mr : Int) : ℚ) / 1000000000) with hle | hlt
    · rw [min_eq_left hle]
      simp
    · rw [min_eq_right (le_of_lt hlt)]
      linarith

/-- Store of the C9 witness: one account with internal balance 3 SOL. -/
def dbC9 : DB := DB.mk [User.mk 1 3 none 0] [] 5

/-- Witness for C9 at a concrete input. -/
theorem c9_sweep_success_witness :
    (sweep_user_funds (some "MW") (some ("p9", "k9")) true (some 1000005000) (some "t9") dbC9 1 5000).result
        = some (SweepResult.mk 1 "p9" (((1000005000 - 5000 : Int) : ℚ) / 1000000000) "t9") ∧
    (sweep_user_funds (some "MW") (some ("p9", "k9")) true (some 1000005000) (some "t9") dbC9 1 5000).db.transactions
        = dbC9.transactions
          ++ [TxEntry.mk "t9" 1 (-(((1000005000 - 5000 : Int) : ℚ) / 1000000000)) TxType.sweep] ∧
    balanceOf (sweep_user_funds (some "MW") (some ("p9", "k9")) true (some 1000005000) (some "t9") dbC9 1 5000).db 1
        = some ((3 : ℚ) - min (3 : ℚ) (((1000005000 - 5000 : Int) : ℚ) / 1000000000)) ∧
    (0 : ℚ) ≤ (3 : ℚ) - min (3 : ℚ) (((1000005000 - 5000 : Int) : ℚ) / 1000000000) :=
  c9_sweep_success "MW" ("p9", "k9") 1000005000 "t9" dbC9 1 5000 (User.mk 1 3 none 0)
    (by decide) (by decide) rfl rfl

/-- C10: when the keystore file exists but cannot be read or parsed,
load_keypairs returns the empty dict, and the next generate_user_keypair
call rewrites the durable keystore to contain exactly the new account's
keypair: every other account's stored key material is gone from the file. -/
theorem c10_keystore_overwrite_on_unreadable (pub priv : String) (uid : Nat) :
    load_keypairs KeystoreFile.unreadable = [] ∧
    (generate_user_keypair pub priv uid KeystoreFile.unreadable).1
      = KeystoreFile.parsed [(toString uid, pub, priv)] ∧
    ∀ k, k ≠ toString uid →
      keystoreLookup (generate_user_keypair pub priv uid KeystoreFile.unreadable).1 k = none := by
  refine ⟨rfl, rfl, ?_⟩
  intro k hk
  unfold keystoreLookup generate_user_keypair load_keypairs dictInsert save_keypairs
  dsimp only
  simp only [List.any_nil, List.nil_append, Bool.false_eq_true, if_false, List.find?]
  have hb : ((toString uid : String) == k) = false := by
    simp only [beq_eq_false_iff_ne]
    exact fun hh => hk hh.symm
  rw [hb]
  rfl

/-- Witness for C10 at a concrete input. -/
theorem c10_keystore_overwrite_on_unreadable_witness :
    ("1" : String) ≠ toString (7 : Nat) ∧
    keystoreLookup (generate_user_keypair "P" "K" 7 KeystoreFile.unreadable).1 "1" = none :=
  ⟨by decide, (c10_keystore_overwrite_on_unreadable "P" "K" 7).2.2 "1" (by decide)⟩

end VanityApp
